import Mathlib

/-!
Shallow embedding of `src/anomaly_detection.py` — the EMA anomaly detector
(`class EMAAnomalyDetector`, lines 51-90).  Machine floats are modelled as
real numbers; the detector state, the update operation and its error paths
are translated arm by arm from the source.
-/

/--
The initialization status of the pair `(self.ema, self.std)`.

* `unset` — both fields are `None` (constructor, lines 63 and 65).
* `active ema std` — both numeric, set together by `update_ema`.
* `poisoned` — `self.ema` holds a non-numeric object: this happens when the
  very first sample is non-numeric (line 73 stores it unconditionally; the
  z-score computation at line 82 then raises, the `except` at line 88
  returns `False`).  In this state every later call raises inside the `try`
  before any assignment (line 77 `self.alpha * value + (1-alpha) * self.ema`
  fails), so the state is absorbing and every call returns `False`.  The
  numeric value of `self.std` (0, set at line 74) is never read again, so
  the model drops it.
-/
inductive Phase
| unset
| poisoned
| active (ema : ℝ) (std : ℝ)

/--
One sample handed to `update_ema`.  `num x` is a finite numeric sample;
`nonNumeric` is any object whose mixed arithmetic with floats raises
`TypeError` (a string, `None`, a list, ...).  `update_ema` performs no
explicit validation — it relies on the `try`/`except` of lines 70-90.
-/
inductive Input
| num (x : ℝ)
| nonNumeric

/--
The detector object: the configuration fields `alpha` (line 64) and
`threshold` (line 66) and the mutable pair `(ema, std)` folded into `phase`.
-/
structure EMAAnomalyDetector where
  alpha : ℝ
  threshold : ℝ
  phase : Phase

/--
`EMAAnomalyDetector.__init__` (lines 62-66).  The constructor stores
`alpha` and `threshold` verbatim — the source performs no validation of
either argument — and leaves `ema`/`std` unset.
-/
def EMAAnomalyDetector.init (alpha threshold : ℝ) : EMAAnomalyDetector :=
  ⟨alpha, threshold, Phase.unset⟩

/-- Line 77: `self.ema = self.alpha * value + (1 - self.alpha) * self.ema`. -/
noncomputable def newEma (alpha ema v : ℝ) : ℝ :=
  alpha * v + (1 - alpha) * ema

/--
Line 79: `self.std = np.sqrt(self.alpha * (value - self.ema) ** 2
+ (1 - self.alpha) * self.std ** 2)` — note `self.ema` here is already the
updated mean, since line 77 ran first.
-/
noncomputable def newStd (alpha ema2 std v : ℝ) : ℝ :=
  Real.sqrt (alpha * (v - ema2) ^ 2 + (1 - alpha) * std ^ 2)

/--
Line 82: `z_score = (value - self.ema) / (self.std if self.std > 0 else 1)`,
applied to the post-update `ema` and `std`.
-/
noncomputable def zscore (v ema std : ℝ) : ℝ :=
  (v - ema) / (if std > 0 then std else 1)

/--
`EMAAnomalyDetector.update_ema` (lines 68-90).  Returns the boolean of
line 84 (`abs(z_score) > self.threshold`) together with the mutated state.

* numeric sample, state unset (lines 72-74): `ema := value`, `std := 0`,
  then score and flag on lines 82-84;
* numeric sample, state active (lines 75-79): EMA and std recurrences, then
  score and flag;
* numeric sample, state poisoned: line 77 raises `TypeError` before any
  assignment, the handler at line 88 returns `False`, state unchanged;
* non-numeric sample, state unset: line 73 stores the object, line 82
  raises, handler returns `False` — the state is poisoned;
* non-numeric sample, state active or poisoned: line 77 raises before any
  assignment, handler returns `False`, state unchanged.
-/
noncomputable def EMAAnomalyDetector.update_ema (s : EMAAnomalyDetector)
    (inp : Input) : Bool × EMAAnomalyDetector :=
  match inp, s.phase with
  | Input.num v, Phase.unset =>
      (decide (|zscore v v 0| > s.threshold),
        ⟨s.alpha, s.threshold, Phase.active v 0⟩)
  | Input.num v, Phase.active c d =>
      (decide (|zscore v (newEma s.alpha c v)
          (newStd s.alpha (newEma s.alpha c v) d v)| > s.threshold),
        ⟨s.alpha, s.threshold,
          Phase.active (newEma s.alpha c v)
            (newStd s.alpha (newEma s.alpha c v) d v)⟩)
  | Input.num _, Phase.poisoned => (false, s)
  | Input.nonNumeric, Phase.unset =>
      (false, ⟨s.alpha, s.threshold, Phase.poisoned⟩)
  | Input.nonNumeric, _ => (false, s)

/-- State after feeding a list of samples, one `update_ema` call each. -/
noncomputable def runState (s : EMAAnomalyDetector) (l : List Input) :
    EMAAnomalyDetector :=
  l.foldl (fun st i => (st.update_ema i).2) s

/-- The booleans returned by the successive `update_ema` calls on `l`. -/
noncomputable def runOutputs (s : EMAAnomalyDetector) :
    List Input → List Bool
  | [] => []
  | i :: rest =>
      (s.update_ema i).1 :: runOutputs (s.update_ema i).2 rest

/--
The z-score that the call `update_ema value` computes internally at
line 82 (it is used for the comparison at line 84 but not returned).  In
the poisoned phase the computation is never reached (the `try` raises
first); the value 0 is an arbitrary placeholder for that dead branch.
-/
noncomputable def scoreAfter (s : EMAAnomalyDetector) (v : ℝ) : ℝ :=
  match s.phase with
  | Phase.unset => zscore v v 0
  | Phase.active c d =>
      zscore v (newEma s.alpha c v) (newStd s.alpha (newEma s.alpha c v) d v)
  | Phase.poisoned => 0

example : (EMAAnomalyDetector.init 1 2).phase = Phase.unset := rfl

/-! ### Small reduction lemmas for the match arms of `update_ema` -/

lemma update_ema_unset (a t v : ℝ) :
    (EMAAnomalyDetector.init a t).update_ema (Input.num v) =
      (decide (|zscore v v 0| > t), ⟨a, t, Phase.active v 0⟩) := rfl

lemma update_ema_active (a t c d v : ℝ) :
    (EMAAnomalyDetector.mk a t (Phase.active c d)).update_ema (Input.num v) =
      (decide (|zscore v (newEma a c v) (newStd a (newEma a c v) d v)| > t),
        ⟨a, t, Phase.active (newEma a c v) (newStd a (newEma a c v) d v)⟩) :=
  rfl

lemma zscore_self (v : ℝ) : zscore v v 0 = 0 := by
  simp [zscore]

/--
**C2.** For every valid configuration (`alpha ∈ (0,1]`, `threshold ≥ 0`)
and every finite first sample `v`, the first call to `update_ema` returns
`False`, and afterwards the center equals `v` and the spread equals `0`.
-/
theorem C2_first_sample (a t v : ℝ) (h1 : 0 < a) (h2 : a ≤ 1) (h3 : 0 ≤ t) :
    (EMAAnomalyDetector.init a t).update_ema (Input.num v) =
      (false, ⟨a, t, Phase.active v 0⟩) := by
  rw [update_ema_unset]
  simp [zscore_self]
  exact h3

theorem C2_first_sample_witness :
    (0:ℝ) < 1/2 ∧ (1/2:ℝ) ≤ 1 ∧ (0:ℝ) ≤ 3 ∧
      (EMAAnomalyDetector.init (1/2) 3).update_ema (Input.num 7) =
        (false, ⟨1/2, 3, Phase.active 7 0⟩) :=
  ⟨by norm_num, by norm_num, by norm_num,
    C2_first_sample (1/2) 3 7 (by norm_num) (by norm_num) (by norm_num)⟩

/--
**C1.** For every subsequent valid finite sample (state already active,
`alpha ∈ (0,1]`), one call to `update_ema` sets the center to
`alpha*value + (1-alpha)*old_center`, sets the spread to
`sqrt (alpha*(value - new_center)^2 + (1-alpha)*old_spread^2)` — the
deviation taken against the updated center — and the internally computed
score equals `(value - new_center)/new_spread` when `new_spread > 0` and
`(value - new_center)/1` when `new_spread = 0`; the call returns `True`
exactly when `|score| > threshold`.
-/
theorem C1_subsequent_update (a t c d v c2 d2 : ℝ) (h1 : 0 < a) (h2 : a ≤ 1)
    (hc : c2 = a * v + (1 - a) * c)
    (hd : d2 = Real.sqrt (a * (v - c2) ^ 2 + (1 - a) * d ^ 2)) :
    ((EMAAnomalyDetector.mk a t (Phase.active c d)).update_ema
        (Input.num v)).2 = ⟨a, t, Phase.active c2 d2⟩ ∧
    (d2 > 0 →
      scoreAfter (EMAAnomalyDetector.mk a t (Phase.active c d)) v =
        (v - c2) / d2) ∧
    (d2 = 0 →
      scoreAfter (EMAAnomalyDetector.mk a t (Phase.active c d)) v =
        (v - c2) / 1) ∧
    (((EMAAnomalyDetector.mk a t (Phase.active c d)).update_ema
        (Input.num v)).1 = true ↔
      |scoreAfter (EMAAnomalyDetector.mk a t (Phase.active c d)) v| > t) := by
  have he : newEma a c v = c2 := by rw [hc, newEma]
  have hsd : newStd a c2 d v = d2 := by rw [hd, newStd]
  have hscore : scoreAfter (EMAAnomalyDetector.mk a t (Phase.active c d)) v =
      zscore v c2 d2 := by
    show zscore v (newEma a c v) (newStd a (newEma a c v) d v) = zscore v c2 d2
    rw [he, hsd]
  refine ⟨?_, ?_, ?_, ?_⟩
  · rw [update_ema_active, he, hsd]
  · intro hpos
    rw [hscore, zscore, if_pos hpos]
  · intro hzero
    rw [hscore, zscore, hzero]
    simp
  · rw [update_ema_active, he, hsd, hscore]
    exact decide_eq_true_iff

theorem C1_subsequent_update_witness :
    (0:ℝ) < 1/2 ∧ (1/2:ℝ) ≤ 1 ∧
    ((1:ℝ) = 1/2 * 2 + (1 - 1/2) * 0) ∧
    (Real.sqrt (1/2) =
      Real.sqrt (1/2 * ((2:ℝ) - 1) ^ 2 + (1 - 1/2) * (0:ℝ) ^ 2)) ∧
    (((EMAAnomalyDetector.mk (1/2) 3 (Phase.active 0 0)).update_ema
        (Input.num 2)).2 = ⟨1/2, 3, Phase.active 1 (Real.sqrt (1/2))⟩ ∧
    (Real.sqrt (1/2) > 0 →
      scoreAfter (EMAAnomalyDetector.mk (1/2) 3 (Phase.active 0 0)) 2 =
        ((2:ℝ) - 1) / Real.sqrt (1/2)) ∧
    (Real.sqrt (1/2) = 0 →
      scoreAfter (EMAAnomalyDetector.mk (1/2) 3 (Phase.active 0 0)) 2 =
        ((2:ℝ) - 1) / 1) ∧
    (((EMAAnomalyDetector.mk (1/2) 3 (Phase.active 0 0)).update_ema
        (Input.num 2)).1 = true ↔
      |scoreAfter (EMAAnomalyDetector.mk (1/2) 3 (Phase.active 0 0)) 2| > 3)) :=
  ⟨by norm_num, by norm_num, by norm_num, by norm_num,
    C1_subsequent_update (1/2) 3 0 0 2 1 (Real.sqrt (1/2))
      (by norm_num) (by norm_num) (by norm_num) (by norm_num)⟩

/--
**C4 (amended).** Feeding one non-numeric sample between two valid samples
`a`, `b` leaves the detector state exactly as feeding `a`, `b` alone — the
invalid sample is a no-op on an initialized state — but the offending call
returns the plain boolean `False`, the same value as a normal
non-anomalous classification, not a distinguishable `InvalidSample` result.
-/
theorem C4_invalid_isolation (al t a b : ℝ) :
    runState (EMAAnomalyDetector.init al t)
        [Input.num a, Input.nonNumeric, Input.num b] =
      runState (EMAAnomalyDetector.init al t) [Input.num a, Input.num b] ∧
    ((runState (EMAAnomalyDetector.init al t) [Input.num a]).update_ema
        Input.nonNumeric).1 = false :=
  ⟨rfl, rfl⟩

/--
**C4 (counterexample).** The call on the invalid sample does not produce a
distinguishable `InvalidSample` result: after a first sample `50`, the call
with a non-numeric sample returns exactly the same value (`False`) as a
normal valid call classifying `50` as non-anomalous.
-/
theorem C4_no_distinguishable_error :
    ((runState (EMAAnomalyDetector.init (1/10) 3) [Input.num 50]).update_ema
        Input.nonNumeric).1 =
      ((runState (EMAAnomalyDetector.init (1/10) 3) [Input.num 50]).update_ema
        (Input.num 50)).1 ∧
    ((runState (EMAAnomalyDetector.init (1/10) 3) [Input.num 50]).update_ema
        Input.nonNumeric).1 = false := by
  have h50 : runState (EMAAnomalyDetector.init (1/10) 3) [Input.num 50] =
      EMAAnomalyDetector.mk (1/10) 3 (Phase.active 50 0) := rfl
  have hz : zscore 50 (newEma (1/10) 50 50)
      (newStd (1/10) (newEma (1/10) 50 50) 0 50) = 0 := by
    have : newEma (1/10) 50 50 = 50 := by norm_num [newEma]
    rw [this, zscore]
    norm_num
  constructor
  · rw [h50, update_ema_active, hz]
    norm_num
    rfl
  · rfl

/--
**C5 (counterexample).** Construction does not fail on an invalid
configuration: `EMAAnomalyDetector(alpha=5, threshold=-1)` — `alpha`
outside `(0,1]` and a negative `threshold` — succeeds and produces a
detector instance that stores both garbage values verbatim.
-/
theorem C5_construction_accepts_garbage :
    EMAAnomalyDetector.init 5 (-1) =
      EMAAnomalyDetector.mk 5 (-1) Phase.unset := rfl

/--
**C5 (amended).** Construction performs no validation at all: for every
`alpha` and `threshold` whatsoever it silently produces a detector holding
those values with the state pair unset, and that detector then processes a
first sample normally.
-/
theorem C5_construction_total (a t : ℝ) :
    (EMAAnomalyDetector.init a t).alpha = a ∧
    (EMAAnomalyDetector.init a t).threshold = t ∧
    (EMAAnomalyDetector.init a t).phase = Phase.unset ∧
    ∀ v : ℝ, ((EMAAnomalyDetector.init a t).update_ema (Input.num v)).2 =
      EMAAnomalyDetector.mk a t (Phase.active v 0) :=
  ⟨rfl, rfl, rfl, fun _ => rfl⟩

/--
**C6 (counterexample).** The value returned by `update_ema` carries no
`center`/`spread`/`score` fields: two calls whose post-update centers
differ (`50` vs `60` on a fresh detector) return exactly the same value,
the bare boolean `False`.
-/
theorem C6_return_carries_no_state :
    ((EMAAnomalyDetector.init (1/10) 3).update_ema (Input.num 50)).1 =
      ((EMAAnomalyDetector.init (1/10) 3).update_ema (Input.num 60)).1 ∧
    ((EMAAnomalyDetector.init (1/10) 3).update_ema (Input.num 50)).2.phase ≠
      ((EMAAnomalyDetector.init (1/10) 3).update_ema (Input.num 60)).2.phase := by
  have e1 : ((EMAAnomalyDetector.init (1/10) 3).update_ema (Input.num 50)).1 =
      false := by
    rw [update_ema_unset]
    simp [zscore_self]
  have e2 : ((EMAAnomalyDetector.init (1/10) 3).update_ema (Input.num 60)).1 =
      false := by
    rw [update_ema_unset]
    simp [zscore_self]
  constructor
  · rw [e1, e2]
  · show Phase.active 50 0 ≠ Phase.active 60 0
    intro h
    injection h with h1 h2
    norm_num at h1

/--
**C6 (amended).** For every valid sample — the first one, arriving on the
unset state, as much as a subsequent one on the initialized state —
`update_ema` returns only the boolean anomaly decision
`|z_score| > threshold`; the post-update center and spread are not part of
the return value but are recorded in the mutated detector state.
-/
theorem C6_return_is_flag_state_holds_stats (a t c d v : ℝ) :
    ((EMAAnomalyDetector.mk a t Phase.unset).update_ema
        (Input.num v)).1 =
      decide (|zscore v v 0| > t) ∧
    ((EMAAnomalyDetector.mk a t Phase.unset).update_ema
        (Input.num v)).2 =
      EMAAnomalyDetector.mk a t (Phase.active v 0) ∧
    ((EMAAnomalyDetector.mk a t (Phase.active c d)).update_ema
        (Input.num v)).1 =
      decide (|zscore v (newEma a c v) (newStd a (newEma a c v) d v)| > t) ∧
    ((EMAAnomalyDetector.mk a t (Phase.active c d)).update_ema
        (Input.num v)).2 =
      EMAAnomalyDetector.mk a t
        (Phase.active (newEma a c v) (newStd a (newEma a c v) d v)) :=
  ⟨rfl, rfl, rfl, rfl⟩

/--
**C9.** `update_ema` is total and swallows its error paths: a non-numeric
sample returns the plain boolean `False` in every state, a numeric sample
on a poisoned detector also returns `False`, and a normal valid
non-anomalous call returns the very same value `False` — an erroneous
sample is indistinguishable from a normal non-anomalous classification in
the returned value.
-/
theorem C9_error_paths_return_false :
    (∀ (a t : ℝ) (ph : Phase),
      ((EMAAnomalyDetector.mk a t ph).update_ema Input.nonNumeric).1 =
        false) ∧
    (∀ (a t v : ℝ),
      ((EMAAnomalyDetector.mk a t Phase.poisoned).update_ema
        (Input.num v)).1 = false) ∧
    ((EMAAnomalyDetector.init (1/10) 3).update_ema (Input.num 50)).1 =
      false := by
  refine ⟨fun a t ph => ?_, fun a t v => rfl, ?_⟩
  · cases ph <;> rfl
  · rw [update_ema_unset]
    simp [zscore_self]

/-- One `update_ema` call preserves non-negativity of the stored spread. -/
lemma stdNonneg_update (s : EMAAnomalyDetector) (i : Input)
    (hs : ∀ c d, s.phase = Phase.active c d → 0 ≤ d) :
    ∀ c d, ((s.update_ema i).2).phase = Phase.active c d → 0 ≤ d := by
  obtain ⟨a, t, ph⟩ := s
  cases i with
  | num v =>
    cases ph with
    | unset =>
      intro c d h
      injection h with h1 h2
      rw [← h2]
    | poisoned =>
      intro c d h
      exact Phase.noConfusion h
    | active c0 d0 =>
      intro c d h
      injection h with h1 h2
      rw [← h2]
      exact Real.sqrt_nonneg _
  | nonNumeric =>
    cases ph with
    | unset =>
      intro c d h
      exact Phase.noConfusion h
    | poisoned =>
      intro c d h
      exact Phase.noConfusion h
    | active c0 d0 =>
      intro c d h
      injection h with h1 h2
      rw [← h2]
      exact hs c0 d0 rfl

/-- `runState` preserves non-negativity of the stored spread. -/
lemma stdNonneg_run (l : List Input) :
    ∀ s : EMAAnomalyDetector, (∀ c d, s.phase = Phase.active c d → 0 ≤ d) →
      ∀ c d, (runState s l).phase = Phase.active c d → 0 ≤ d := by
  induction l with
  | nil => exact fun s hs => hs
  | cons i rest ih =>
    intro s hs
    exact ih (s.update_ema i).2 (stdNonneg_update s i hs)

/--
**C3.** For every `alpha ∈ (0,1]` and every sequence of samples fed to a
fresh detector, whenever the state holds a spread (the pair has been
initialized), that spread is `≥ 0`: non-negativity is an invariant of
every `update_ema` call.
-/
theorem C3_spread_nonneg (a t : ℝ) (h1 : 0 < a) (h2 : a ≤ 1)
    (l : List Input) (c d : ℝ)
    (h : (runState (EMAAnomalyDetector.init a t) l).phase =
      Phase.active c d) : 0 ≤ d :=
  stdNonneg_run l (EMAAnomalyDetector.init a t)
    (fun _ _ hh => Phase.noConfusion hh) c d h

theorem C3_spread_nonneg_witness :
    (0:ℝ) < 1/2 ∧ (1/2:ℝ) ≤ 1 ∧
    (runState (EMAAnomalyDetector.init (1/2) 3) [Input.num 5]).phase =
      Phase.active 5 0 ∧ (0:ℝ) ≤ 0 :=
  ⟨by norm_num, by norm_num, rfl,
    C3_spread_nonneg (1/2) 3 (by norm_num) (by norm_num)
      [Input.num 5] 5 0 rfl⟩

/--
**C8.** For a detector with `threshold = 0` and `alpha ∈ (0,1]`, a valid
sample arriving on an initialized state is flagged anomalous exactly when
its computed z-score is nonzero (`|z| > 0 ↔ z ≠ 0`).
-/
theorem C8_threshold_zero (a c d v : ℝ) (h1 : 0 < a) (h2 : a ≤ 1) :
    ((EMAAnomalyDetector.mk a 0 (Phase.active c d)).update_ema
        (Input.num v)).1 = true ↔
      scoreAfter (EMAAnomalyDetector.mk a 0 (Phase.active c d)) v ≠ 0 := by
  have hsc : scoreAfter (EMAAnomalyDetector.mk a 0 (Phase.active c d)) v =
      zscore v (newEma a c v) (newStd a (newEma a c v) d v) := rfl
  rw [update_ema_active, hsc]
  simp only [decide_eq_true_eq]
  exact abs_pos

theorem C8_threshold_zero_witness :
    (0:ℝ) < 1/2 ∧ (1/2:ℝ) ≤ 1 ∧
    (((EMAAnomalyDetector.mk (1/2) 0 (Phase.active 0 0)).update_ema
        (Input.num 1)).1 = true ↔
      scoreAfter (EMAAnomalyDetector.mk (1/2) 0 (Phase.active 0 0)) 1 ≠ 0) :=
  ⟨by norm_num, by norm_num,
    C8_threshold_zero (1/2) 0 0 1 (by norm_num) (by norm_num)⟩

lemma runState_nil (s : EMAAnomalyDetector) : runState s [] = s := rfl

lemma runState_step {s s2 : EMAAnomalyDetector} {b : Bool} {i : Input}
    (rest : List Input) (h : s.update_ema i = (b, s2)) :
    runState s (i :: rest) = runState s2 rest := by
  show runState (s.update_ema i).2 rest = runState s2 rest
  rw [h]

lemma runOutputs_step {s s2 : EMAAnomalyDetector} {b : Bool} {i : Input}
    (rest : List Input) (h : s.update_ema i = (b, s2)) :
    runOutputs s (i :: rest) = b :: runOutputs s2 rest := by
  show (s.update_ema i).1 :: runOutputs (s.update_ema i).2 rest =
    b :: runOutputs s2 rest
  rw [h]

/-- On a fresh `alpha=0.1, threshold=3` detector the first `50` installs
`(center, spread) = (50, 0)` and is not flagged. -/
lemma demo_first_50 :
    (EMAAnomalyDetector.init (1/10) 3).update_ema (Input.num 50) =
      (false, EMAAnomalyDetector.mk (1/10) 3 (Phase.active 50 0)) := by
  rw [update_ema_unset, zscore_self]
  norm_num

/-- A repeated `50` on state `(center, spread) = (50, 0)` is a fixed point
of the update and is not flagged. -/
lemma demo_repeat_50 :
    (EMAAnomalyDetector.mk (1/10) 3 (Phase.active 50 0)).update_ema
        (Input.num 50) =
      (false, EMAAnomalyDetector.mk (1/10) 3 (Phase.active 50 0)) := by
  have he : newEma (1/10) 50 50 = 50 := by
    rw [newEma]; norm_num
  have hd : newStd (1/10) 50 0 50 = 0 := by
    rw [newStd]
    norm_num
  rw [update_ema_active, he, hd, zscore_self]
  norm_num

/-- The jump to `100` on state `(50, 0)` yields center `55`, spread
`√202.5`, and is flagged. -/
lemma demo_jump_100 :
    (EMAAnomalyDetector.mk (1/10) 3 (Phase.active 50 0)).update_ema
        (Input.num 100) =
      (true, EMAAnomalyDetector.mk (1/10) 3
        (Phase.active 55 (Real.sqrt (405/2)))) := by
  have he : newEma (1/10) 50 100 = 55 := by
    rw [newEma]; norm_num
  have hd : newStd (1/10) 55 0 100 = Real.sqrt (405/2) := by
    rw [newStd]; norm_num
  have hpos : (0:ℝ) < Real.sqrt (405/2) := Real.sqrt_pos.2 (by norm_num)
  have hz : zscore 100 55 (Real.sqrt (405/2)) = 45 / Real.sqrt (405/2) := by
    rw [zscore, if_pos hpos]
    norm_num
  have hgt : (3:ℝ) < 45 / Real.sqrt (405/2) := by
    rw [lt_div_iff₀ hpos]
    have hlt : Real.sqrt (405/2) < 15 := by
      rw [Real.sqrt_lt' (by norm_num : (0:ℝ) < 15)]
      norm_num
    nlinarith [Real.sqrt_nonneg ((405:ℝ)/2)]
  have hflag : decide
      (|(45:ℝ) / Real.sqrt (405/2)| > (3:ℝ)) = true := by
    rw [decide_eq_true_eq, abs_of_pos (div_pos (by norm_num) hpos)]
    exact hgt
  rw [update_ema_active, he, hd, hz, hflag]

/--
**C7.** With `alpha = 0.1` and `threshold = 3`, feeding
`[50, 50, 50, 50, 100]` into a fresh detector returns
`[False, False, False, False, True]`; after each of the first four calls
the center is `50` and the spread is `0`, and the fifth call's internally
computed score is positive.
-/
theorem C7_scenario :
    runOutputs (EMAAnomalyDetector.init (1/10) 3)
        [Input.num 50, Input.num 50, Input.num 50, Input.num 50,
          Input.num 100] = [false, false, false, false, true] ∧
    (runState (EMAAnomalyDetector.init (1/10) 3) [Input.num 50]).phase =
      Phase.active 50 0 ∧
    (runState (EMAAnomalyDetector.init (1/10) 3)
        [Input.num 50, Input.num 50]).phase = Phase.active 50 0 ∧
    (runState (EMAAnomalyDetector.init (1/10) 3)
        [Input.num 50, Input.num 50, Input.num 50]).phase =
      Phase.active 50 0 ∧
    (runState (EMAAnomalyDetector.init (1/10) 3)
        [Input.num 50, Input.num 50, Input.num 50, Input.num 50]).phase =
      Phase.active 50 0 ∧
    0 < scoreAfter (runState (EMAAnomalyDetector.init (1/10) 3)
        [Input.num 50, Input.num 50, Input.num 50, Input.num 50]) 100 := by
  have hrun4 : runState (EMAAnomalyDetector.init (1/10) 3)
      [Input.num 50, Input.num 50, Input.num 50, Input.num 50] =
      EMAAnomalyDetector.mk (1/10) 3 (Phase.active 50 0) := by
    rw [runState_step _ demo_first_50, runState_step _ demo_repeat_50,
      runState_step _ demo_repeat_50, runState_step _ demo_repeat_50,
      runState_nil]
  refine ⟨?_, ?_, ?_, ?_, congrArg EMAAnomalyDetector.phase hrun4, ?_⟩
  · rw [runOutputs_step _ demo_first_50, runOutputs_step _ demo_repeat_50,
      runOutputs_step _ demo_repeat_50, runOutputs_step _ demo_repeat_50,
      runOutputs_step _ demo_jump_100]
    rfl
  · rw [runState_step _ demo_first_50, runState_nil]
  · rw [runState_step _ demo_first_50, runState_step _ demo_repeat_50,
      runState_nil]
  · rw [runState_step _ demo_first_50, runState_step _ demo_repeat_50,
      runState_step _ demo_repeat_50, runState_nil]
  · rw [hrun4]
    have he : newEma (1/10) 50 100 = 55 := by
      rw [newEma]; norm_num
    have hd : newStd (1/10) 55 0 100 = Real.sqrt (405/2) := by
      rw [newStd]; norm_num
    have hpos : (0:ℝ) < Real.sqrt (405/2) := Real.sqrt_pos.2 (by norm_num)
    have hsc : scoreAfter
        (EMAAnomalyDetector.mk (1/10) 3 (Phase.active 50 0)) 100 =
        zscore 100 (newEma (1/10) 50 100)
          (newStd (1/10) (newEma (1/10) 50 100) 0 100) := rfl
    rw [hsc, he, hd, zscore, if_pos hpos]
    positivity

/--
With `alpha = 1` the convex combination collapses onto the newest sample:
from any non-poisoned state a valid sample `v` yields
`(center, spread) = (v, 0)` and is not flagged (for `threshold ≥ 0`).
-/
lemma alpha_one_step (t v : ℝ) (ht : 0 ≤ t) (ph : Phase)
    (hp : ph ≠ Phase.poisoned) :
    (EMAAnomalyDetector.mk 1 t ph).update_ema (Input.num v) =
      (false, EMAAnomalyDetector.mk 1 t (Phase.active v 0)) := by
  cases ph with
  | poisoned => exact absurd rfl hp
  | unset =>
    show (EMAAnomalyDetector.init 1 t).update_ema (Input.num v) = _
    rw [update_ema_unset, zscore_self]
    simp [ht]
  | active c d =>
    have he : newEma 1 c v = v := by
      rw [newEma]; ring
    have hd : newStd 1 v d v = 0 := by
      rw [newStd]
      have : (1:ℝ) * (v - v) ^ 2 + (1 - 1) * d ^ 2 = 0 := by ring
      rw [this, Real.sqrt_zero]
    rw [update_ema_active, he, hd, zscore_self]
    simp [ht]

/--
With `alpha = 1`, consuming `m ++ [v]` from any state `(center, spread) =
(w, 0)` lands on `(v, 0)`.
-/
lemma alpha_one_run_concat (t v : ℝ) (ht : 0 ≤ t) :
    ∀ (m : List ℝ) (w : ℝ),
      runState (EMAAnomalyDetector.mk 1 t (Phase.active w 0))
        ((m ++ [v]).map Input.num) =
      EMAAnomalyDetector.mk 1 t (Phase.active v 0) := by
  intro m
  induction m with
  | nil =>
    intro w
    show runState (EMAAnomalyDetector.mk 1 t (Phase.active w 0))
      [Input.num v] = _
    rw [runState_step _
      (alpha_one_step t v ht _ (fun h => Phase.noConfusion h))]
    exact runState_nil _
  | cons x xs ih =>
    intro w
    show runState (EMAAnomalyDetector.mk 1 t (Phase.active w 0))
      (Input.num x :: (xs ++ [v]).map Input.num) = _
    rw [runState_step _
      (alpha_one_step t x ht _ (fun h => Phase.noConfusion h))]
    exact ih x

/-- With `alpha = 1` and `threshold ≥ 0`, every call returns `False`. -/
lemma alpha_one_outputs (t : ℝ) (ht : 0 ≤ t) :
    ∀ (m : List ℝ) (ph : Phase), ph ≠ Phase.poisoned →
      ∀ b ∈ runOutputs (EMAAnomalyDetector.mk 1 t ph) (m.map Input.num),
        b = false := by
  intro m
  induction m with
  | nil =>
    intro ph hp b hb
    exact absurd hb (List.not_mem_nil b)
  | cons x xs ih =>
    intro ph hp b hb
    rw [show ((x :: xs).map Input.num) = Input.num x :: xs.map Input.num
        from rfl,
      runOutputs_step _ (alpha_one_step t x ht ph hp)] at hb
    rcases List.mem_cons.1 hb with h | h
    · exact h
    · exact ih (Phase.active x 0) (fun hh => Phase.noConfusion hh) b h

/--
**C10.** For a detector constructed with `alpha = 1` and any
`threshold ≥ 0`: after every call with a finite sample — i.e. after
consuming any sample sequence `l ++ [v]` — the center equals the latest
sample `v` and the spread equals exactly `0`, and no call in the sequence
ever returns `True`.
-/
theorem C10_alpha_one (t : ℝ) (ht : 0 ≤ t) (l : List ℝ) (v : ℝ) :
    (runState (EMAAnomalyDetector.init 1 t)
        ((l ++ [v]).map Input.num)).phase = Phase.active v 0 ∧
    ∀ b ∈ runOutputs (EMAAnomalyDetector.init 1 t)
        ((l ++ [v]).map Input.num), b = false := by
  constructor
  · cases l with
    | nil =>
      show (runState (EMAAnomalyDetector.mk 1 t Phase.unset)
        [Input.num v]).phase = _
      rw [runState_step _
        (alpha_one_step t v ht _ (fun h => Phase.noConfusion h)),
        runState_nil]
    | cons x xs =>
      show (runState (EMAAnomalyDetector.mk 1 t Phase.unset)
        (Input.num x :: (xs ++ [v]).map Input.num)).phase = _
      rw [runState_step _
        (alpha_one_step t x ht _ (fun h => Phase.noConfusion h)),
        alpha_one_run_concat t v ht xs x]
  · exact alpha_one_outputs t ht (l ++ [v]) Phase.unset
      (fun h => Phase.noConfusion h)

theorem C10_alpha_one_witness :
    (0:ℝ) ≤ 3 ∧
    ((runState (EMAAnomalyDetector.init 1 3)
        (([50] ++ [7]).map Input.num)).phase = Phase.active 7 0 ∧
    ∀ b ∈ runOutputs (EMAAnomalyDetector.init 1 3)
        (([50] ++ [7]).map Input.num), b = false) :=
  ⟨by norm_num, C10_alpha_one 3 (by norm_num) [50] 7⟩
